import Mathlib

/-
  Verification of the ordered event outbox + resumable stream bridge core of
  the tweek.ninja-talkie repository.

  The definitions below are shallow embeddings of the TypeScript/SQL source:
    - ChatRepository (chat_messages append, pagination) from the repository file
      holding ChatRepository (src/unnamed/part_019) and the chat_messages DDL
      (src/unnamed/part_000, unique index ux_chat_messages_session_idx);
    - ChatService.enqueue / chatStream and ChatController.stream from
      src/apps/gateway/src/modules/chat/chat.service.ts and chat.controller.ts;
    - SessionEventsStreamBridge.startPolling from
      src/apps/gateway/src/modules/chat/gql/session-events.stream.bridge.ts;
    - the outbox table DDL from src/ddl/outbox.sql; the outbox publisher worker
      itself is not part of the source tree, so its transition function is
      modelled from the specification (marked as such below).

  Machine integers of the source are modelled as Nat/Int; SQL tables as Lean
  lists of rows in insertion order; a SQL transaction as an atomic state
  transformation (ROLLBACK restores the pre-transaction state).
-/

namespace Talkie

/-! ### Durable log store: chat_messages and ChatRepository.createUserMessage -/

/-- A row of the append-only `chat_messages` table (chat DDL in
src/unnamed/part_000), restricted to the columns that the verified operations
read or write.  Session ids are modelled as naturals. -/
structure ChatMessage where
  sessionId : Nat
  role : String
  mode : String
  content : String
  messageIndex : Nat
  turn : Nat
deriving DecidableEq, Repr

/-- `SELECT message_index FROM chat_messages WHERE session_id = s`, in table
(insertion) order. -/
def sessionIndices (db : List ChatMessage) (s : Nat) : List Nat :=
  (db.filter (fun m => m.sessionId == s)).map (fun m => m.messageIndex)

/-- `SELECT turn FROM chat_messages WHERE session_id = s`, in table order. -/
def sessionTurns (db : List ChatMessage) (s : Nat) : List Nat :=
  (db.filter (fun m => m.sessionId == s)).map (fun m => m.turn)

/-- `COALESCE(MAX(message_index), 0)` over the session's rows
(ChatRepository.createUserMessage, next_index query). -/
def maxMessageIndex (db : List ChatMessage) (s : Nat) : Nat :=
  (sessionIndices db s).foldr Nat.max 0

/-- `COALESCE(MAX(turn), 0)` over the session's rows
(ChatRepository.createUserMessage, next_turn query). -/
def maxTurn (db : List ChatMessage) (s : Nat) : Nat :=
  (sessionTurns db s).foldr Nat.max 0

/-- Embeds `ChatRepository.createUserMessage` (src/unnamed/part_019, lines
52-116): inside one transaction, under `SELECT ... FOR UPDATE` on the session
row, compute `next_index = COALESCE(MAX(message_index),0)+1` and
`next_turn = COALESCE(MAX(turn),0)+1`, insert the row with role `user`, and
commit.  Returns the new table together with the inserted row. -/
def createUserMessage (db : List ChatMessage) (sessionId : Nat) (content : String)
    (mode : String) : List ChatMessage × ChatMessage :=
  let nextIndex := maxMessageIndex db sessionId + 1
  let nextTurn := maxTurn db sessionId + 1
  let row : ChatMessage :=
    { sessionId := sessionId, role := "user", mode := mode, content := content,
      messageIndex := nextIndex, turn := nextTurn }
  (db ++ [row], row)

/-- One call of `createUserMessage` by some caller.  `commits` records whether
the surrounding transaction commits; on failure the code issues ROLLBACK, which
restores the pre-transaction table. -/
structure AppendOp where
  sessionId : Nat
  content : String
  mode : String
  commits : Bool
deriving DecidableEq, Repr

/-- Transaction semantics of a single append: COMMIT makes the insert visible,
ROLLBACK leaves the table unchanged (no partial write is ever visible). -/
def applyAppend (db : List ChatMessage) (op : AppendOp) : List ChatMessage :=
  if op.commits then (createUserMessage db op.sessionId op.content op.mode).1 else db

/-- Runs a serialization of append transactions.  The `FOR UPDATE` row lock on
the session header serializes concurrent callers of the same session, so every
concurrent execution of the appends corresponds to some order of `ops`; the
theorem below quantifies over all such orders. -/
def runAppends : List ChatMessage → List AppendOp → List ChatMessage
  | db, [] => db
  | db, op :: ops => runAppends (applyAppend db op) ops

lemma foldr_max_eq_of_le (l : List Nat) (b : Nat) (h : ∀ x ∈ l, x ≤ b) :
    l.foldr Nat.max b = b := by
  induction l with
  | nil => rfl
  | cons x xs ih =>
    have hx : x ≤ b := h x (List.mem_cons_self x xs)
    have hxs := ih (fun y hy => h y (List.mem_cons_of_mem x hy))
    simp [List.foldr_cons, hxs, Nat.max_eq_right hx]

lemma foldr_max_range' (n : Nat) : (List.range' 1 n).foldr Nat.max 0 = n := by
  induction n with
  | zero => rfl
  | succ k ih =>
    have hcat : List.range' 1 (k + 1) = List.range' 1 k ++ [1 + 1 * k] :=
      List.range'_concat 1 k
    rw [hcat, List.foldr_append]
    have hbound : ∀ x ∈ List.range' 1 k, x ≤ 1 + 1 * k := by
      intro x hx
      have := List.mem_range'_1.mp hx
      omega
    have hfold := foldr_max_eq_of_le (List.range' 1 k) (1 + 1 * k) (by
      intro x hx
      have := List.mem_range'_1.mp hx
      omega)
    simp only [List.foldr_cons, List.foldr_nil, Nat.max_zero]
    rw [hfold]
    omega

lemma sessionIndices_append (db : List ChatMessage) (m : ChatMessage) (s : Nat) :
    sessionIndices (db ++ [m]) s
      = sessionIndices db s ++ (if m.sessionId == s then [m.messageIndex] else []) := by
  by_cases h : m.sessionId = s
  · simp [sessionIndices, List.filter_append, h]
  · simp [sessionIndices, List.filter_append, h]

lemma maxMessageIndex_of_range (db : List ChatMessage) (s n : Nat)
    (h : sessionIndices db s = List.range' 1 n) : maxMessageIndex db s = n := by
  rw [maxMessageIndex, h, foldr_max_range']

lemma runAppends_invariant (s : Nat) (ops : List AppendOp) :
    ∀ (db : List ChatMessage) (n : Nat), (∀ op ∈ ops, op.sessionId = s) →
      sessionIndices db s = List.range' 1 n →
      sessionIndices (runAppends db ops) s
        = List.range' 1 (n + ops.countP (fun op => op.commits)) := by
  induction ops with
  | nil => intro db n _ h; simpa [runAppends] using h
  | cons op ops ih =>
    intro db n hall h
    have hops : ∀ o ∈ ops, o.sessionId = s :=
      fun o ho => hall o (List.mem_cons_of_mem op ho)
    have hop : op.sessionId = s := hall op (List.mem_cons_self op ops)
    rw [runAppends]
    by_cases hc : op.commits
    · have hmax : maxMessageIndex db s = n := maxMessageIndex_of_range db s n h
      have hstep : sessionIndices (applyAppend db op) s = List.range' 1 (n + 1) := by
        rw [applyAppend, if_pos hc, createUserMessage]
        rw [sessionIndices_append]
        simp only [hop, beq_self_eq_true, if_pos]
        rw [h, hmax]
        have hcat : List.range' 1 (n + 1) = List.range' 1 n ++ [1 + 1 * n] :=
          List.range'_concat 1 n
        rw [hcat]
        simp [Nat.add_comm]
      have := ih (applyAppend db op) (n + 1) hops hstep
      rw [this]
      have hcount : (op :: ops).countP (fun o => o.commits)
          = ops.countP (fun o => o.commits) + 1 := by
        simp [List.countP_cons, hc]
      rw [hcount]
      congr 1
      omega
    · have hstep : applyAppend db op = db := by simp [applyAppend, hc]
      rw [hstep]
      have := ih db n hops h
      rw [this]
      have hcount : (op :: ops).countP (fun o => o.commits)
          = ops.countP (fun o => o.commits) := by
        simp [List.countP_cons, hc]
      rw [hcount]

/-- Claim C1: `createUserMessage` assigns `message_index` equal to the maximum
existing index of the session plus one (one for an empty session), with the
sequence computation and insertion atomic in one transaction under the session
row lock; hence any serialization of the appends of N committed transactions
(by however many concurrent callers — the `FOR UPDATE` lock serializes them)
yields exactly the indices 1..N in ascending order, with no gaps and no
duplicates, and an aborted transaction contributes nothing (ROLLBACK leaves the
table unchanged). -/
theorem C1_createUserMessage_sequence
    (s : Nat) (ops : List AppendOp) (db0 : List ChatMessage)
    (hs : ∀ op ∈ ops, op.sessionId = s)
    (h0 : sessionIndices db0 s = []) :
    (∀ db c m, (createUserMessage db s c m).2.messageIndex = maxMessageIndex db s + 1) ∧
    (∀ c m, (createUserMessage db0 s c m).2.messageIndex = 1) ∧
    sessionIndices (runAppends db0 ops) s
      = List.range' 1 (ops.countP (fun op => op.commits)) := by
  refine ⟨fun db c m => rfl, ?_, ?_⟩
  · intro c m
    have hmax : maxMessageIndex db0 s = 0 := by
      rw [maxMessageIndex, h0]; rfl
    show maxMessageIndex db0 s + 1 = 1
    rw [hmax]
  · have := runAppends_invariant s ops db0 0 hs (by simpa using h0)
    simpa using this

/-- Concrete instance of claim C1: two committed appends interleaved with an
aborted one on session 1 yield exactly the indices 1, 2. -/
theorem C1_witness :
    sessionIndices
        (runAppends [] [⟨1, "hello", "gen", true⟩, ⟨1, "x", "gen", false⟩,
          ⟨1, "world", "gen", true⟩]) 1
      = List.range' 1 2 :=
  (C1_createUserMessage_sequence 1
      [⟨1, "hello", "gen", true⟩, ⟨1, "x", "gen", false⟩, ⟨1, "world", "gen", true⟩]
      [] (by decide) (by decide)).2.2

/-! ### Read contract: ChatRepository.listMessagesBySession -/

/-- The SQL `ORDER BY cm.message_index DESC` comparison: row `a` may precede
row `b` when `b.message_index <= a.message_index`. -/
def descByIndex (a b : ChatMessage) : Prop := b.messageIndex ≤ a.messageIndex

instance : DecidableRel descByIndex := fun a b => Nat.decLe b.messageIndex a.messageIndex

instance : IsTotal ChatMessage descByIndex := ⟨fun a b => Nat.le_total b.messageIndex a.messageIndex⟩

instance : IsTrans ChatMessage descByIndex := ⟨fun _ _ _ hab hbc => le_trans hbc hab⟩

/-- Pagination options of `listMessagesBySession`: `first` is the requested
page size (`undefined` modelled as `none`), `before` the exclusive
`message_index` keyset cursor. -/
structure ListOpts where
  first : Option Int
  before : Option Int
deriving DecidableEq, Repr

/-- `Math.min(Math.max(opts.first ?? 20, 1), 100)` — the silent clamp of the
page size to [1, 100] in `listMessagesBySession` (src/unnamed/part_019). -/
def clampLimit (first : Option Int) : Int :=
  min (max (first.getD 20) 1) 100

/-- The WHERE clause of `listMessagesBySession`:
`cm.session_id = $1 [AND cm.message_index < $before]`. -/
def matchesListQuery (sessionId : Nat) (before : Option Int) (m : ChatMessage) : Bool :=
  m.sessionId == sessionId &&
    (match before with
     | some b => decide ((m.messageIndex : Int) < b)
     | none => true)

/-- Embeds `ChatRepository.listMessagesBySession` (src/unnamed/part_019, lines
159-190): clamp the page size to [1, 100] (default 20), filter the session's
rows by the exclusive `before` cursor, fetch in `message_index` DESC order with
`LIMIT`, then `rows.reverse()` so the caller sees ascending order. -/
def listMessagesBySession (db : List ChatMessage) (sessionId : Nat) (opts : ListOpts) :
    List ChatMessage :=
  ((List.insertionSort descByIndex
      (db.filter (matchesListQuery sessionId opts.before))).take
      (clampLimit opts.first).toNat).reverse

lemma listMessages_rows_sublist (db : List ChatMessage) (s : Nat) (before : Option Int) :
    (db.filter (matchesListQuery s before)).Sublist
      (db.filter (fun m => m.sessionId == s)) := by
  apply List.monotone_filter_right
  intro m hm
  simp only [matchesListQuery, Bool.and_eq_true] at hm
  exact hm.1

lemma listMessages_mem_rows (db : List ChatMessage) (s : Nat) (opts : ListOpts)
    (m : ChatMessage) (hm : m ∈ listMessagesBySession db s opts) :
    m ∈ db.filter (matchesListQuery s opts.before) := by
  rw [listMessagesBySession, List.mem_reverse] at hm
  have := List.mem_of_mem_take hm
  exact (List.perm_insertionSort descByIndex _).mem_iff.mp this

/-- Claim C7: `listMessagesBySession` returns the session's rows in strictly
ascending `message_index` order (strictness uses the uniqueness of
`(session_id, message_index)` enforced by `ux_chat_messages_session_idx`), and
when the exclusive `before` cursor is supplied, every returned row has
`message_index` strictly below it. -/
theorem C7_listMessages_ascending
    (db : List ChatMessage) (s : Nat) (opts : ListOpts)
    (hnodup : (sessionIndices db s).Nodup) :
    (listMessagesBySession db s opts).Pairwise
        (fun a b => a.messageIndex < b.messageIndex) ∧
    (∀ b, opts.before = some b →
      ∀ m ∈ listMessagesBySession db s opts, (m.messageIndex : Int) < b) := by
  constructor
  · -- strict ascending order
    set rows := db.filter (matchesListQuery s opts.before) with hrows
    have hnodupRows : (rows.map (fun m => m.messageIndex)).Nodup := by
      have hsub := (listMessages_rows_sublist db s opts.before).map
        (fun m => m.messageIndex)
      rw [← hrows] at hsub
      exact hsub.nodup hnodup
    have hsorted : (List.insertionSort descByIndex rows).Pairwise descByIndex :=
      List.sorted_insertionSort descByIndex rows
    have hnodupSort : ((List.insertionSort descByIndex rows).map
        (fun m => m.messageIndex)).Nodup := by
      have hperm := (List.perm_insertionSort descByIndex rows).map
        (fun m => m.messageIndex)
      exact hperm.nodup_iff.mpr hnodupRows
    set taken := (List.insertionSort descByIndex rows).take (clampLimit opts.first).toNat
      with htaken
    have hsortedTake : taken.Pairwise descByIndex :=
      List.Pairwise.sublist (List.take_sublist _ _) hsorted
    have hnodupTake : (taken.map (fun m => m.messageIndex)).Nodup := by
      have hsub := (List.take_sublist (clampLimit opts.first).toNat
        (List.insertionSort descByIndex rows)).map (fun m => m.messageIndex)
      exact hsub.nodup hnodupSort
    have hres : listMessagesBySession db s opts = taken.reverse := by
      rw [listMessagesBySession, htaken, hrows]
    rw [hres]
    have hle : taken.reverse.Pairwise (fun a b => a.messageIndex ≤ b.messageIndex) := by
      rw [List.pairwise_reverse]
      exact hsortedTake.imp (fun h => h)
    have hne : taken.reverse.Pairwise (fun a b => a.messageIndex ≠ b.messageIndex) := by
      have : (taken.reverse.map (fun m => m.messageIndex)).Nodup := by
        rw [List.map_reverse, List.nodup_reverse]
        exact hnodupTake
      exact List.pairwise_map.mp this
    exact (hle.and hne).imp (fun h => lt_of_le_of_ne h.1 h.2)
  · -- exclusive cursor bound
    intro b hb m hm
    have := List.of_mem_filter (listMessages_mem_rows db s opts m hm)
    simp only [matchesListQuery, hb, Bool.and_eq_true, decide_eq_true_eq] at this
    exact this.2

/-- Concrete instance of claim C7: a three-row session stored out of order is
returned ascending and below the cursor. -/
theorem C7_witness :
    (listMessagesBySession
        [⟨1, "user", "gen", "b", 2, 2⟩, ⟨1, "assistant", "gen", "a", 1, 1⟩,
         ⟨2, "user", "gen", "z", 1, 1⟩, ⟨1, "user", "gen", "c", 3, 3⟩] 1
        ⟨some 10, some 3⟩).Pairwise (fun a b => a.messageIndex < b.messageIndex) ∧
    (∀ b, (some 3 : Option Int) = some b →
      ∀ m ∈ listMessagesBySession
        [⟨1, "user", "gen", "b", 2, 2⟩, ⟨1, "assistant", "gen", "a", 1, 1⟩,
         ⟨2, "user", "gen", "z", 1, 1⟩, ⟨1, "user", "gen", "c", 3, 3⟩] 1
        ⟨some 10, some 3⟩, (m.messageIndex : Int) < b) :=
  C7_listMessages_ascending
    [⟨1, "user", "gen", "b", 2, 2⟩, ⟨1, "assistant", "gen", "a", 1, 1⟩,
     ⟨2, "user", "gen", "z", 1, 1⟩, ⟨1, "user", "gen", "c", 3, 3⟩] 1
    ⟨some 10, some 3⟩ (by decide)

/-- Claim C10: the page size is silently clamped to [1, 100]: `first > 100`
returns at most 100 rows, `first < 1` behaves exactly as `first = 1`, and an
absent `first` defaults to 20; the clamp never raises an error (the embedded
function is total). -/
theorem C10_listMessages_clamp
    (db : List ChatMessage) (s : Nat) (before : Option Int) (f : Int) :
    (100 < f → (listMessagesBySession db s ⟨some f, before⟩).length ≤ 100) ∧
    (f < 1 → listMessagesBySession db s ⟨some f, before⟩
      = listMessagesBySession db s ⟨some 1, before⟩) ∧
    listMessagesBySession db s ⟨none, before⟩
      = listMessagesBySession db s ⟨some 20, before⟩ := by
  refine ⟨?_, ?_, ?_⟩
  · intro _
    have hlen : (listMessagesBySession db s ⟨some f, before⟩).length
        ≤ (clampLimit (some f)).toNat := by
      rw [listMessagesBySession, List.length_reverse, List.length_take]
      exact Nat.min_le_left _ _
    have hcl : (clampLimit (some f)).toNat ≤ 100 := by
      rw [clampLimit]
      simp only [Option.getD_some]
      omega
    omega
  · intro hf
    have hcl : clampLimit (some f) = clampLimit (some 1) := by
      rw [clampLimit, clampLimit]
      simp only [Option.getD_some]
      omega
    rw [listMessagesBySession, listMessagesBySession]
    rw [hcl]
  · rfl

/-- Concrete instance of claim C10: the clamp at 150, -5 and absent `first`. -/
theorem C10_witness :
    (listMessagesBySession [] 1 ⟨some 150, none⟩).length ≤ 100 ∧
    listMessagesBySession [] 1 ⟨some (-5), none⟩
      = listMessagesBySession [] 1 ⟨some 1, none⟩ ∧
    listMessagesBySession [] 1 ⟨none, none⟩
      = listMessagesBySession [] 1 ⟨some 20, none⟩ :=
  ⟨(C10_listMessages_clamp [] 1 none 150).1 (by decide),
   (C10_listMessages_clamp [] 1 none (-5)).2.1 (by decide),
   (C10_listMessages_clamp [] 1 none 0).2.2⟩

/-! ### Gateway enqueue path: ChatService.enqueue and ChatRepository.insertOutbox -/

/-- The `EnqueueInput` DTO as read by `ChatService.enqueue`: `jobId`,
optional `sessionId`, `message`, `mode`. -/
structure EnqueueInput where
  jobId : String
  sessionId : Option Nat
  message : String
  mode : String
deriving DecidableEq, Repr

/-- The authenticated principal (`AuthUser`); `sub` is the user id. -/
structure AuthUser where
  sub : String
deriving DecidableEq, Repr

/-- The payload built by `ChatService.enqueue` for `chat.request` and
`chat.title.generate` (the title payload additionally carries a traceId). -/
structure ChatPayload where
  traceId : Option String
  jobId : String
  userId : String
  sessionId : Nat
  message : String
deriving DecidableEq, Repr

/-- A row of the `outbox` table as written by `ChatRepository.insertOutbox`
(src/unnamed/part_019, lines 138-151): `INSERT INTO outbox (topic, key,
payload_json)` in its own `pool.query` call, i.e. its own transaction. -/
structure OutboxRow where
  topic : String
  key : String
  payload : ChatPayload
deriving DecidableEq, Repr

/-- Gateway-visible durable and broker state touched by `ChatService.enqueue`:
`chat_sessions` rows as (id, owner), `chat_messages`, `jobs` rows as
(job id, session id), `outbox` rows, and the list of messages successfully
produced to Kafka. -/
structure GwState where
  sessions : List (Nat × String)
  messages : List ChatMessage
  jobs : List (String × Nat)
  outbox : List OutboxRow
  kafka : List (String × ChatPayload)
deriving DecidableEq, Repr

/-- Embeds `ChatRepository.upsertJobQueued` (src/unnamed/part_019, lines
119-132): `INSERT ... ON CONFLICT (id) DO UPDATE`. -/
def upsertJobQueued (jobs : List (String × Nat)) (jobId : String) (sessionId : Nat) :
    List (String × Nat) :=
  if jobs.any (fun j => j.1 == jobId) then
    jobs.map (fun j => if j.1 == jobId then (jobId, sessionId) else j)
  else jobs ++ [(jobId, sessionId)]

/-- Embeds `ChatRepository.ensureOwned` (src/unnamed/part_019, lines 38-44):
`SELECT 1 FROM chat_sessions WHERE id=$1 AND user_id=$2`, returning whether a
row exists. -/
def ensureOwned (sessions : List (Nat × String)) (sessionId : Nat) (userId : String) :
    Bool :=
  sessions.any (fun p => p.1 == sessionId && p.2 == userId)

/-- The awaited operations of `ChatService.enqueue`
(src/apps/gateway/src/modules/chat/chat.service.ts, lines 67-115), in program
order, each an atomic database transaction or broker call:
`_createOrUseSession` (creates a session row only when the client supplied no
`sessionId`; `fresh` models the generated session id and `traceId` the
generated trace uuid), then `createUserMessage` (its own transaction), then
`upsertJobQueued`, then — for a new session — the `chat.title.generate` Kafka
produce with `insertOutbox` as catch-fallback, then the `chat.request` Kafka
produce with `insertOutbox` as catch-fallback.  `titleOk`/`reqOk` say whether
the respective Kafka produce succeeds; on failure the catch block inserts the
outbox row in a separate transaction. -/
def enqueueSteps (dto : EnqueueInput) (user : AuthUser) (fresh : Nat)
    (traceId : String) (titleOk reqOk : Bool) : List (GwState → GwState) :=
  let sessionId := dto.sessionId.getD fresh
  let isNew := dto.sessionId.isNone
  let payload : ChatPayload :=
    { traceId := none, jobId := dto.jobId, userId := user.sub,
      sessionId := sessionId, message := dto.message }
  let titlePayload : ChatPayload :=
    { traceId := some traceId, jobId := dto.jobId, userId := user.sub,
      sessionId := sessionId, message := dto.message }
  (if isNew then
      [fun st => { st with sessions := st.sessions ++ [(fresh, user.sub)] }]
    else [])
  ++ [fun st =>
        { st with messages :=
            (createUserMessage st.messages sessionId dto.message dto.mode).1 }]
  ++ [fun st => { st with jobs := upsertJobQueued st.jobs dto.jobId sessionId }]
  ++ (if isNew then
        if titleOk then
          [fun st => { st with kafka := st.kafka ++ [("chat.title.generate", titlePayload)] }]
        else
          [fun st => { st with outbox := st.outbox ++ [⟨"chat.title.generate", traceId, titlePayload⟩] }]
      else [])
  ++ (if reqOk then
        [fun st => { st with kafka := st.kafka ++ [("chat.request", payload)] }]
      else
        [fun st => { st with outbox := st.outbox ++ [⟨"chat.request", dto.jobId, payload⟩] }])

/-- Executes a prefix-closed sequence of atomic operations. -/
def runSteps : GwState → List (GwState → GwState) → GwState
  | st, [] => st
  | st, f :: fs => runSteps (f st) fs

/-- The state visible after a crash that interrupts `enqueue` once its first
`k` awaited operations have committed. -/
def enqueueCrash (dto : EnqueueInput) (user : AuthUser) (fresh : Nat)
    (traceId : String) (titleOk reqOk : Bool) (st : GwState) (k : Nat) : GwState :=
  runSteps st ((enqueueSteps dto user fresh traceId titleOk reqOk).take k)

/-- A complete (crash-free) run of `ChatService.enqueue`; the returned pair is
the response `(sessionId, jobId)`. -/
def enqueue (dto : EnqueueInput) (user : AuthUser) (fresh : Nat)
    (traceId : String) (titleOk reqOk : Bool) (st : GwState) :
    GwState × (Nat × String) :=
  (runSteps st (enqueueSteps dto user fresh traceId titleOk reqOk),
   (dto.sessionId.getD fresh, dto.jobId))

/-- Counterexample to claim C2: enqueue with an existing session, whose
`chat.request` Kafka produce is going to fail (so the outbox fallback would
run), crashes right after the `createUserMessage` transaction committed: the
chat message row exists and no outbox row does, so exactly one of the two
exists — the message write and the outbox insert are not one transaction. -/
theorem C2_counterexample :
    (enqueueCrash ⟨"J1", some 7, "hi", "gen"⟩ ⟨"alice"⟩ 0 "t" true false
        ⟨[(7, "alice")], [], [], [], []⟩ 1).messages.length = 1 ∧
    (enqueueCrash ⟨"J1", some 7, "hi", "gen"⟩ ⟨"alice"⟩ 0 "t" true false
        ⟨[(7, "alice")], [], [], [], []⟩ 1).outbox = [] := by
  constructor
  · rfl
  · rfl

/-- Claim C2 (amended): the outbox insert of `ChatService.enqueue` runs in a
separate transaction after the message transaction has committed, and only
when the direct Kafka publish fails.  Consequently (a) at every crash point, an
outbox row written by this request implies the message row is already durable
(the outbox row never exists without the message row, though the converse can
fail, as the counterexample shows), and (b) when both Kafka produces succeed no
outbox row is written at all. -/
theorem C2_outbox_separate_transaction
    (dto : EnqueueInput) (user : AuthUser) (fresh : Nat) (traceId : String)
    (titleOk reqOk : Bool) (st0 : GwState) (k : Nat)
    (h0 : st0.outbox = []) :
    ((enqueueCrash dto user fresh traceId titleOk reqOk st0 k).outbox ≠ [] →
      (enqueueCrash dto user fresh traceId titleOk reqOk st0 k).messages ≠ []) ∧
    (titleOk = true → reqOk = true →
      (runSteps st0 (enqueueSteps dto user fresh traceId titleOk reqOk)).outbox = []) := by
  constructor
  · rw [enqueueCrash]
    rcases hsid : dto.sessionId with _ | s <;>
      rcases titleOk with _ | _ <;>
        rcases reqOk with _ | _ <;>
          rcases k with _ | _ | _ | _ | _ | k <;>
            simp [enqueueSteps, runSteps, createUserMessage, h0, hsid,
              List.take_succ_cons]
  · intro ht hr
    subst ht; subst hr
    rcases hsid : dto.sessionId with _ | s <;>
      simp [enqueueSteps, runSteps, h0, hsid]

/-- Concrete instance of the amended claim C2, at the counterexample's inputs
plus a crash point after the outbox fallback ran: once the outbox row exists
the message row exists too, and a fully successful Kafka run writes no outbox
row. -/
theorem C2_witness :
    ((enqueueCrash ⟨"J1", some 7, "hi", "gen"⟩ ⟨"alice"⟩ 0 "t" true false
        ⟨[(7, "alice")], [], [], [], []⟩ 3).outbox ≠ [] →
      (enqueueCrash ⟨"J1", some 7, "hi", "gen"⟩ ⟨"alice"⟩ 0 "t" true false
        ⟨[(7, "alice")], [], [], [], []⟩ 3).messages ≠ []) ∧
    (true = true → true = true →
      (runSteps ⟨[(7, "alice")], [], [], [], []⟩
        (enqueueSteps ⟨"J1", some 7, "hi", "gen"⟩ ⟨"alice"⟩ 0 "t" true true)).outbox = []) :=
  ⟨(C2_outbox_separate_transaction ⟨"J1", some 7, "hi", "gen"⟩ ⟨"alice"⟩ 0 "t" true false
      ⟨[(7, "alice")], [], [], [], []⟩ 3 rfl).1,
   (C2_outbox_separate_transaction ⟨"J1", some 7, "hi", "gen"⟩ ⟨"alice"⟩ 0 "t" true true
      ⟨[(7, "alice")], [], [], [], []⟩ 3 rfl).2⟩

/-- Claim C9: when the client supplies an existing `sessionId`,
`ChatService.enqueue` performs no ownership check on it (`ensureOwned` exists
in the repository but is not called on this path): two runs that differ only
in whether the caller owns the supplied session — one state where
`ensureOwned` answers true, one where it answers false — return the same
response and write the same message, job, outbox and Kafka data, and in both
runs the caller's message is persisted into that session. -/
theorem C9_enqueue_no_ownership_check
    (dto : EnqueueInput) (user : AuthUser) (fresh : Nat) (traceId : String)
    (titleOk reqOk : Bool) (s : Nat) (st1 st2 : GwState)
    (hs : dto.sessionId = some s)
    (hmsg : st1.messages = st2.messages) (hjobs : st1.jobs = st2.jobs)
    (hout : st1.outbox = st2.outbox) (hkafka : st1.kafka = st2.kafka)
    (hown1 : ensureOwned st1.sessions s user.sub = true)
    (hown2 : ensureOwned st2.sessions s user.sub = false) :
    (enqueue dto user fresh traceId titleOk reqOk st1).2
      = (enqueue dto user fresh traceId titleOk reqOk st2).2 ∧
    (enqueue dto user fresh traceId titleOk reqOk st1).1.messages
      = (enqueue dto user fresh traceId titleOk reqOk st2).1.messages ∧
    (enqueue dto user fresh traceId titleOk reqOk st1).1.jobs
      = (enqueue dto user fresh traceId titleOk reqOk st2).1.jobs ∧
    (enqueue dto user fresh traceId titleOk reqOk st1).1.outbox
      = (enqueue dto user fresh traceId titleOk reqOk st2).1.outbox ∧
    (enqueue dto user fresh traceId titleOk reqOk st1).1.kafka
      = (enqueue dto user fresh traceId titleOk reqOk st2).1.kafka ∧
    (∃ m ∈ (enqueue dto user fresh traceId titleOk reqOk st1).1.messages,
      m.sessionId = s ∧ m.content = dto.message) ∧
    (∃ m ∈ (enqueue dto user fresh traceId titleOk reqOk st2).1.messages,
      m.sessionId = s ∧ m.content = dto.message) := by
  refine ⟨rfl, ?_, ?_, ?_, ?_, ?_, ?_⟩ <;>
    rcases reqOk with _ | _ <;>
      simp [enqueue, enqueueSteps, runSteps, hs, createUserMessage,
        hmsg, hjobs, hout, hkafka] <;>
      exact ⟨_, Or.inr rfl, rfl, rfl⟩

/-- Concrete instance of claim C9: the same enqueue against a state where
alice owns session 7 and a state where she does not. -/
theorem C9_witness :
    (enqueue ⟨"J1", some 7, "hi", "gen"⟩ ⟨"alice"⟩ 0 "t" true true
        ⟨[(7, "alice")], [], [], [], []⟩).2
      = (enqueue ⟨"J1", some 7, "hi", "gen"⟩ ⟨"alice"⟩ 0 "t" true true
        ⟨[(7, "mallory")], [], [], [], []⟩).2 ∧
    (enqueue ⟨"J1", some 7, "hi", "gen"⟩ ⟨"alice"⟩ 0 "t" true true
        ⟨[(7, "alice")], [], [], [], []⟩).1.messages
      = (enqueue ⟨"J1", some 7, "hi", "gen"⟩ ⟨"alice"⟩ 0 "t" true true
        ⟨[(7, "mallory")], [], [], [], []⟩).1.messages ∧
    (enqueue ⟨"J1", some 7, "hi", "gen"⟩ ⟨"alice"⟩ 0 "t" true true
        ⟨[(7, "alice")], [], [], [], []⟩).1.jobs
      = (enqueue ⟨"J1", some 7, "hi", "gen"⟩ ⟨"alice"⟩ 0 "t" true true
        ⟨[(7, "mallory")], [], [], [], []⟩).1.jobs ∧
    (enqueue ⟨"J1", some 7, "hi", "gen"⟩ ⟨"alice"⟩ 0 "t" true true
        ⟨[(7, "alice")], [], [], [], []⟩).1.outbox
      = (enqueue ⟨"J1", some 7, "hi", "gen"⟩ ⟨"alice"⟩ 0 "t" true true
        ⟨[(7, "mallory")], [], [], [], []⟩).1.outbox ∧
    (enqueue ⟨"J1", some 7, "hi", "gen"⟩ ⟨"alice"⟩ 0 "t" true true
        ⟨[(7, "alice")], [], [], [], []⟩).1.kafka
      = (enqueue ⟨"J1", some 7, "hi", "gen"⟩ ⟨"alice"⟩ 0 "t" true true
        ⟨[(7, "mallory")], [], [], [], []⟩).1.kafka ∧
    (∃ m ∈ (enqueue ⟨"J1", some 7, "hi", "gen"⟩ ⟨"alice"⟩ 0 "t" true true
        ⟨[(7, "alice")], [], [], [], []⟩).1.messages,
      m.sessionId = 7 ∧ m.content = "hi") ∧
    (∃ m ∈ (enqueue ⟨"J1", some 7, "hi", "gen"⟩ ⟨"alice"⟩ 0 "t" true true
        ⟨[(7, "mallory")], [], [], [], []⟩).1.messages,
      m.sessionId = 7 ∧ m.content = "hi") :=
  C9_enqueue_no_ownership_check ⟨"J1", some 7, "hi", "gen"⟩ ⟨"alice"⟩ 0 "t"
    true true 7 ⟨[(7, "alice")], [], [], [], []⟩ ⟨[(7, "mallory")], [], [], [], []⟩
    rfl rfl rfl rfl rfl (by decide) (by decide)

/-! ### Outbox publisher retry / dead-letter state machine -/

/-- The `status` column of the `outbox` table (src/ddl/outbox.sql, CHECK
constraint: pending, publishing, published, failed, dead_lettered,
canceled). -/
inductive OutboxStatus
  | pending
  | publishing
  | published
  | failed
  | deadLettered
  | canceled
deriving DecidableEq, Repr

/-- A publisher-visible outbox row: the scheduling columns of
src/ddl/outbox.sql (`status`, `retry_count`, `next_attempt_at`; timestamps
modelled as naturals). -/
structure PubRow where
  id : Nat
  status : OutboxStatus
  retryCount : Nat
  nextAttemptAt : Option Nat
deriving DecidableEq, Repr

/-- Modelled from the spec: the outbox publisher worker is not part of the
source tree (only the `outbox` DDL is), so `backoff` follows section 4.2 of
the specification — exponential backoff capped at a maximum interval:
`backoff(r) = min(base * 2^r, maxDelay)`. -/
def backoff (base maxDelay r : Nat) : Nat :=
  min (base * 2 ^ r) maxDelay

/-- Modelled from the spec: the publisher's failure transition (section 4.2)
— increment `retryCount`; if `retryCount > ceiling` set `dead_lettered`;
else set `status = pending` and `nextAttemptAt = now + backoff(retryCount)`. -/
def onFailure (ceiling base maxDelay now : Nat) (row : PubRow) : PubRow :=
  let rc := row.retryCount + 1
  if rc > ceiling then
    { row with retryCount := rc, status := OutboxStatus.deadLettered }
  else
    { row with
        retryCount := rc
        status := OutboxStatus.pending
        nextAttemptAt := some (now + backoff base maxDelay rc) }

/-- Modelled from the spec: the publisher's success transition —
`status = published`. -/
def markPublished (row : PubRow) : PubRow :=
  { row with status := OutboxStatus.published }

/-- Modelled from the spec: `selectDue(limit)` — rows where
`status = 'pending' AND (next_attempt_at IS NULL OR next_attempt_at <= now())`
(this is also the partial-index predicate `idx_outbox_sched` of
src/ddl/outbox.sql), truncated to `limit`. -/
def selectDue (rows : List PubRow) (now limit : Nat) : List PubRow :=
  (rows.filter (fun r =>
    r.status == OutboxStatus.pending &&
      (match r.nextAttemptAt with
       | none => true
       | some t => decide (t ≤ now)))).take limit

/-- Modelled from the spec: one publisher iteration — claim the due rows and
attempt delivery; `ok` says whether the broker accepts a given row.  Rows not
selected are untouched. -/
def publisherTick (ceiling base maxDelay now limit : Nat) (ok : PubRow → Bool)
    (rows : List PubRow) : List PubRow :=
  rows.map (fun r =>
    if r ∈ selectDue rows now limit then
      (if ok r then markPublished r else onFailure ceiling base maxDelay now r)
    else r)

/-- A sequence of failed publish attempts at the given times. -/
def failTimes (ceiling base maxDelay : Nat) (row : PubRow) : List Nat → PubRow
  | [] => row
  | t :: ts => failTimes ceiling base maxDelay (onFailure ceiling base maxDelay t row) ts

lemma failTimes_pending (ceiling base maxDelay : Nat) :
    ∀ (ts : List Nat) (row : PubRow), row.retryCount + ts.length ≤ ceiling →
      row.status = OutboxStatus.pending →
      (failTimes ceiling base maxDelay row ts).status = OutboxStatus.pending ∧
      (failTimes ceiling base maxDelay row ts).retryCount
        = row.retryCount + ts.length := by
  intro ts
  induction ts with
  | nil => intro row _ hst; exact ⟨hst, rfl⟩
  | cons t ts ih =>
    intro row hle _
    have hnot : ¬ row.retryCount + 1 > ceiling := by
      simp only [List.length_cons] at hle
      omega
    have hstep : onFailure ceiling base maxDelay t row
        = { row with
              retryCount := row.retryCount + 1
              status := OutboxStatus.pending
              nextAttemptAt := some (t + backoff base maxDelay (row.retryCount + 1)) } := by
      rw [onFailure]
      simp [hnot]
    rw [failTimes, hstep]
    have := ih
      { row with
          retryCount := row.retryCount + 1
          status := OutboxStatus.pending
          nextAttemptAt := some (t + backoff base maxDelay (row.retryCount + 1)) }
      (by simp only [List.length_cons] at hle; simp; omega)
      rfl
    refine ⟨this.1, ?_⟩
    rw [this.2]
    simp only [List.length_cons]
    omega

/-- Claim C3: a failed publish attempt increments `retryCount`; while the
count stays within the ceiling the row returns to `pending` with a capped
exponential-backoff `nextAttemptAt`; after `ceiling + 1` failures a fresh row
is `dead_lettered`, a dead-lettered row is never selected by `selectDue`, and
every subsequent publisher tick leaves it unchanged. -/
theorem C3_outbox_dead_letter
    (ceiling base maxDelay : Nat) (row : PubRow) (ts : List Nat) (tLast : Nat)
    (hrc : row.retryCount = 0) (hst : row.status = OutboxStatus.pending)
    (hts : ts.length = ceiling) :
    (∀ now r, (onFailure ceiling base maxDelay now r).retryCount
       = r.retryCount + 1) ∧
    (∀ now r, r.retryCount + 1 ≤ ceiling →
       (onFailure ceiling base maxDelay now r).status = OutboxStatus.pending ∧
       (onFailure ceiling base maxDelay now r).nextAttemptAt
         = some (now + min (base * 2 ^ (r.retryCount + 1)) maxDelay)) ∧
    (failTimes ceiling base maxDelay row (ts ++ [tLast])).status
        = OutboxStatus.deadLettered ∧
    (∀ rows now limit r, r.status = OutboxStatus.deadLettered →
       r ∉ selectDue rows now limit) ∧
    (∀ rows now limit okf r, r.status = OutboxStatus.deadLettered → r ∈ rows →
       r ∈ publisherTick ceiling base maxDelay now limit okf rows ∧
       (publisherTick ceiling base maxDelay now limit okf rows).length
         = rows.length) := by
  have hdead_not_due : ∀ (rows : List PubRow) (now limit : Nat) (r : PubRow),
      r.status = OutboxStatus.deadLettered → r ∉ selectDue rows now limit := by
    intro rows now limit r hr hmem
    have := List.of_mem_filter (List.mem_of_mem_take hmem)
    rw [hr] at this
    simp at this
  refine ⟨fun now r => ?_, fun now r hle => ?_, ?_, hdead_not_due, ?_⟩
  · rw [onFailure]
    by_cases h : r.retryCount + 1 > ceiling <;> simp [h]
  · have hnot : ¬ r.retryCount + 1 > ceiling := by omega
    rw [onFailure]
    simp [hnot, backoff]
  · have hpend := failTimes_pending ceiling base maxDelay ts row
      (by omega) hst
    have hsplit : ∀ (us : List Nat) (r : PubRow) (u : Nat),
        failTimes ceiling base maxDelay r (us ++ [u])
          = onFailure ceiling base maxDelay u
              (failTimes ceiling base maxDelay r us) := by
      intro us
      induction us with
      | nil => intro r u; rfl
      | cons v vs ih => intro r u; rw [List.cons_append, failTimes, failTimes, ih]
    rw [hsplit]
    rw [onFailure]
    have : (failTimes ceiling base maxDelay row ts).retryCount + 1 > ceiling := by
      rw [hpend.2, hrc, hts]
      omega
    simp [this]
  · intro rows now limit okf r hr hmem
    constructor
    · rw [publisherTick]
      have : (fun x =>
          if x ∈ selectDue rows now limit then
            (if okf x then markPublished x else onFailure ceiling base maxDelay now x)
          else x) r = r := by
        simp only [if_neg (hdead_not_due rows now limit r hr)]
      rw [← this]
      exact List.mem_map_of_mem _ hmem
    · rw [publisherTick, List.length_map]

/-- Concrete instance of claim C3: with ceiling 3, a fresh pending row that
fails four times is dead-lettered and untouched by a later tick. -/
theorem C3_witness :
    (failTimes 3 5 60 ⟨1, OutboxStatus.pending, 0, none⟩ ([10, 20, 30] ++ [40])).status
        = OutboxStatus.deadLettered ∧
    (⟨1, OutboxStatus.deadLettered, 4, none⟩ : PubRow)
        ∉ selectDue [⟨1, OutboxStatus.deadLettered, 4, none⟩] 1000 32 ∧
    (⟨1, OutboxStatus.deadLettered, 4, none⟩ : PubRow)
        ∈ publisherTick 3 5 60 1000 32 (fun _ => true)
            [⟨1, OutboxStatus.deadLettered, 4, none⟩] := by
  have h := C3_outbox_dead_letter 3 5 60 ⟨1, OutboxStatus.pending, 0, none⟩
    [10, 20, 30] 40 rfl rfl rfl
  exact ⟨h.2.2.1,
    h.2.2.2.1 [⟨1, OutboxStatus.deadLettered, 4, none⟩] 1000 32 _ rfl,
    (h.2.2.2.2 [⟨1, OutboxStatus.deadLettered, 4, none⟩] 1000 32 (fun _ => true) _
      rfl (List.mem_singleton_self _)).1⟩

/-! ### SSE streaming: ChatService.chatStream and ChatController.stream -/

/-- A JSON object with string-valued fields, as an association list — the
granularity at which the verified streaming logic inspects payloads. -/
abbrev Obj := List (String × String)

/-- Field access on a JSON object. -/
def lookupF (o : Obj) (k : String) : Option String :=
  (o.find? (fun kv => kv.1 == k)).map (fun kv => kv.2)

/-- One Redis stream entry of an `sse:chat:...:events` channel.  `id` models
the monotone Redis stream id (an ms-seq pair ordered lexicographically,
modelled by its rank: the sentinel id 0-0 is 0 and every real entry id is
positive).  `raw` is the result of `JSON.parse` on the entry's `data` field;
`none` covers both invalid JSON and the absent field, because for an absent
field the code substitutes a default object carrying no `userId`, which the
schema rejects exactly like a parse failure. -/
structure ChannelEntry where
  id : Nat
  raw : Option Obj
deriving DecidableEq, Repr

/-- `StreamEventSchema.parse` (chat.service.ts, lines 21-31): `userId` and
`jobId` are required strings; `event`, `sessionId`, `data`, `ts` are optional,
and the schema is loose, so the whole object passes through on success. -/
def validateStreamEvent (o : Obj) : Option Obj :=
  match lookupF o "userId", lookupF o "jobId" with
  | some _, some _ => some o
  | _, _ => none

/-- Decode one channel entry: JSON parse of the data field, then schema
validation; `none` means the loop skips the entry (the catch-continue of
lines 166-176). -/
def decodeEntry (e : ChannelEntry) : Option Obj :=
  e.raw.bind validateStreamEvent

/-- The `userId` field of a validated event. -/
def evtUserId (o : Obj) : String := (lookupF o "userId").getD ""

/-- The `jobId` field of a validated event. -/
def evtJobId (o : Obj) : String := (lookupF o "jobId").getD ""

/-- The emitted event name: `evt.event` when it is a string, else
`message` (chat.service.ts, line 183). -/
def eventNameOf (o : Obj) : String := (lookupF o "event").getD "message"

/-- The rest-spread of line 182 that omits the internal `userId` field from
the emitted payload. -/
def stripUserId (o : Obj) : Obj := o.filter (fun kv => kv.1 != "userId")

/-- A Server-Sent-Event frame as passed to `subscriber.next`: `type` is the
event name, `data` the JSON payload. -/
structure SseFrame where
  type : String
  data : Obj
deriving DecidableEq, Repr

/-- The per-entry body of the `chatStream` read loop (chat.service.ts, lines
150-193): decode and validate the entry (skip on failure); skip when the
event's `userId` differs from the requester AND its `jobId` differs from the
requested job (the filter of line 179 — note the conjunction); strip the
`userId`; emit the frame; and end the stream right after a `done` or `error`
event. -/
def processEntries (userId jobId : String) : List ChannelEntry → List SseFrame
  | [] => []
  | e :: rest =>
    match decodeEntry e with
    | none => processEntries userId jobId rest
    | some o =>
      if evtUserId o != userId && evtJobId o != jobId then
        processEntries userId jobId rest
      else if eventNameOf o == "done" || eventNameOf o == "error" then
        [⟨eventNameOf o, stripUserId o⟩]
      else
        ⟨eventNameOf o, stripUserId o⟩ :: processEntries userId jobId rest

/-- `XREAD ... STREAMS key cursor`: the entries with id strictly greater than
the cursor, in channel order. -/
def xread (channel : List ChannelEntry) (cursor : Nat) : List ChannelEntry :=
  channel.filter (fun e => decide (cursor < e.id))

/-- The data frames `ChatService.chatStream` emits over a fixed channel: the
blocking-read loop advances its cursor past every delivered entry, so over a
fixed channel it delivers exactly the entries after `lastId`; the idle-branch
heartbeat `ping` frames are not data frames and are not modelled. -/
def chatStream (channel : List ChannelEntry) (userId jobId : String) (lastId : Nat) :
    List SseFrame :=
  processEntries userId jobId (xread channel lastId)

/-- `ChatController.stream` (chat.controller.ts, line 51): the Last-Event-ID
header when present, otherwise the start-of-channel sentinel 0-0
(modelled as 0). -/
def streamLastEventId (header : Option Nat) : Nat := header.getD 0

/-- The frame a decodable entry yields. -/
def frameOfEntry (e : ChannelEntry) : SseFrame :=
  match decodeEntry e with
  | some o => ⟨eventNameOf o, stripUserId o⟩
  | none => ⟨"message", []⟩

lemma processEntries_eq_map (u j : String) :
    ∀ l : List ChannelEntry,
      (∀ e ∈ l, ∃ o, decodeEntry e = some o ∧ evtUserId o = u ∧
        eventNameOf o ≠ "done" ∧ eventNameOf o ≠ "error") →
      processEntries u j l = l.map frameOfEntry := by
  intro l
  induction l with
  | nil => intro _; rfl
  | cons e rest ih =>
    intro h
    obtain ⟨o, hdec, huser, hdone, herr⟩ := h e (List.mem_cons_self e rest)
    have htail := ih (fun x hx => h x (List.mem_cons_of_mem e hx))
    simp [processEntries, hdec, huser, hdone, herr, frameOfEntry, htail]

/-- Claim C4: over a channel whose entries all decode to valid events of the
requesting user and carry no terminal event name, opening the stream with a
cursor emits exactly the entries with id greater than the cursor, in channel
order, one frame per entry (no repeats, no gaps); and when no Last-Event-ID
header is supplied the controller starts from the start-of-channel sentinel,
so every entry of the channel is emitted. -/
theorem C4_stream_resume
    (channel : List ChannelEntry) (u j : String) (cursor : Nat)
    (hvalid : ∀ e ∈ channel, ∃ o, decodeEntry e = some o ∧ evtUserId o = u ∧
      eventNameOf o ≠ "done" ∧ eventNameOf o ≠ "error") :
    chatStream channel u j cursor = (xread channel cursor).map frameOfEntry ∧
    streamLastEventId none = 0 ∧
    ((∀ e ∈ channel, 0 < e.id) →
      chatStream channel u j (streamLastEventId none) = channel.map frameOfEntry) := by
  have hmain : ∀ c : Nat, chatStream channel u j c = (xread channel c).map frameOfEntry := by
    intro c
    rw [chatStream]
    apply processEntries_eq_map
    intro e he
    exact hvalid e (List.mem_of_mem_filter he)
  refine ⟨hmain cursor, rfl, fun hpos => ?_⟩
  have h0 : streamLastEventId none = 0 := rfl
  rw [h0, hmain 0]
  have : xread channel 0 = channel := by
    rw [xread, List.filter_eq_self]
    intro e he
    simpa using hpos e he
  rw [this]

/-- Concrete instance of claim C4: a channel with entries 1..3, resumed from
cursor 1, emits exactly entries 2 and 3; with no header, all three. -/
theorem C4_witness :
    chatStream
        [⟨1, some [("userId", "alice"), ("jobId", "J"), ("event", "token")]⟩,
         ⟨2, some [("userId", "alice"), ("jobId", "J"), ("event", "token")]⟩,
         ⟨3, some [("userId", "alice"), ("jobId", "J"), ("event", "sources")]⟩]
        "alice" "J" 1
      = (xread
          [⟨1, some [("userId", "alice"), ("jobId", "J"), ("event", "token")]⟩,
           ⟨2, some [("userId", "alice"), ("jobId", "J"), ("event", "token")]⟩,
           ⟨3, some [("userId", "alice"), ("jobId", "J"), ("event", "sources")]⟩]
          1).map frameOfEntry ∧
    streamLastEventId none = 0 ∧
    ((∀ e ∈
        ([⟨1, some [("userId", "alice"), ("jobId", "J"), ("event", "token")]⟩,
          ⟨2, some [("userId", "alice"), ("jobId", "J"), ("event", "token")]⟩,
          ⟨3, some [("userId", "alice"), ("jobId", "J"), ("event", "sources")]⟩] :
          List ChannelEntry),
        0 < e.id) →
      chatStream
        [⟨1, some [("userId", "alice"), ("jobId", "J"), ("event", "token")]⟩,
         ⟨2, some [("userId", "alice"), ("jobId", "J"), ("event", "token")]⟩,
         ⟨3, some [("userId", "alice"), ("jobId", "J"), ("event", "sources")]⟩]
        "alice" "J" (streamLastEventId none)
      = [⟨1, some [("userId", "alice"), ("jobId", "J"), ("event", "token")]⟩,
         ⟨2, some [("userId", "alice"), ("jobId", "J"), ("event", "token")]⟩,
         ⟨3, some [("userId", "alice"), ("jobId", "J"), ("event", "sources")]⟩].map
          frameOfEntry) :=
  C4_stream_resume
    [⟨1, some [("userId", "alice"), ("jobId", "J"), ("event", "token")]⟩,
     ⟨2, some [("userId", "alice"), ("jobId", "J"), ("event", "token")]⟩,
     ⟨3, some [("userId", "alice"), ("jobId", "J"), ("event", "sources")]⟩]
    "alice" "J" 1
    (by
      intro e he
      simp only [List.mem_cons, List.not_mem_nil, or_false] at he
      rcases he with rfl | rfl | rfl <;>
        exact ⟨_, rfl, rfl, by decide, by decide⟩)

/-- Claim C5 (refuting instance): the line-179 filter skips an entry only when
both the `userId` and the `jobId` mismatch, so an event carrying another
user's id but the requested job id is emitted to the requester (its `userId`
field is stripped, hiding the mismatch): the claimed per-user ownership filter
does not hold, while the stripping half of the claim does. -/
theorem C5_foreign_user_event_emitted :
    chatStream
        [⟨5, some [("userId", "mallory"), ("jobId", "job-1"), ("event", "token")]⟩]
        "alice" "job-1" 0
      = [⟨"token", [("jobId", "job-1"), ("event", "token")]⟩] ∧
    evtUserId [("userId", "mallory"), ("jobId", "job-1"), ("event", "token")]
      = "mallory" ∧
    "mallory" ≠ "alice" := by
  refine ⟨?_, rfl, by decide⟩
  rfl

/-- A JavaScript Error as caught by the chatStream loop: `message` and
`stack` are the standard fields. -/
structure JsError where
  message : String
  stack : String
deriving DecidableEq, Repr

/-- The catch and `reader.on error` handlers of `chatStream`
(chat.service.ts, lines 133-140 and 198-203): they emit a frame of type
`error` whose data has a single `message` field holding `err.message`, then
set `stopped` and complete the stream. -/
def onStreamError (e : JsError) : SseFrame :=
  ⟨"error", [("message", e.message)]⟩

/-- A stream run in which the blocking read raises `e` after the channel's
entries were delivered: the catch emits one terminal error frame and
completes, so nothing follows it. -/
def chatStreamAbort (channel : List ChannelEntry) (u j : String) (lastId : Nat)
    (e : JsError) : List SseFrame :=
  chatStream channel u j lastId ++ [onStreamError e]

/-- Counterexample to claim C8: a Redis connection failure's raw message text
is forwarded verbatim to the client inside the terminal error frame. -/
theorem C8_counterexample :
    chatStreamAbort [] "alice" "J" 0
        ⟨"connect ECONNREFUSED 10.0.0.5:6379",
         "Error: connect ECONNREFUSED 10.0.0.5:6379 at TCPConnectWrap.afterConnect"⟩
      = [⟨"error", [("message", "connect ECONNREFUSED 10.0.0.5:6379")]⟩] := by
  rfl

/-- Claim C8 (amended): on an internal failure the client receives exactly one
terminal `error` frame; its data consists solely of a `message` field carrying
the error's own message text verbatim — the stack trace and other error
fields are not forwarded, but the raw message text is, not a redacted one. -/
theorem C8_error_frame_contents
    (channel : List ChannelEntry) (u j : String) (c : Nat) (e : JsError) :
    (chatStreamAbort channel u j c e).getLast?
        = some ⟨"error", [("message", e.message)]⟩ ∧
    lookupF (onStreamError e).data "stack" = none ∧
    (onStreamError e).data = [("message", e.message)] := by
  refine ⟨?_, rfl, rfl⟩
  rw [chatStreamAbort, List.getLast?_concat]
  rfl

/-! ### Stream bridge: SessionEventsStreamBridge.startPolling -/

/-- One entry claimed by the bridge's XREADGROUP call.  `payloadRaw` is the
result of `JSON.parse(obj.payload ?? "null-object")`: the missing field parses
as the empty object, and `none` models invalid JSON (which throws into the
per-entry catch). -/
structure BridgeEntry where
  id : Nat
  payloadRaw : Option Obj
deriving DecidableEq, Repr

/-- `SessionEventSchema.parse` (session-events.stream.bridge.ts, lines
20-24): `type` must be CREATED, UPDATED or DELETED; `session` and `userId`
are optional. -/
def validateSessionEvent (o : Obj) : Option Obj :=
  match lookupF o "type" with
  | some t =>
    if t == "CREATED" || t == "UPDATED" || t == "DELETED" then some o else none
  | none => none

/-- Observable outcome of handling one claimed entry: whether XACK was issued
and whether the payload reached the pub/sub fan-out. -/
structure BridgeOutcome where
  acked : Bool
  published : Bool
deriving DecidableEq, Repr

/-- The per-entry try/catch body of `startPolling`
(session-events.stream.bridge.ts, lines 69-81): parse and validate the
payload (throws on failure), publish to the pub/sub (`publishOk` says whether
that call succeeds), then XACK; the catch block logs and XACKs.  Every path
acknowledges. -/
def bridgeHandleEntry (publishOk : Bool) (e : BridgeEntry) : BridgeOutcome :=
  match e.payloadRaw.bind validateSessionEvent with
  | some _ => if publishOk then ⟨true, true⟩ else ⟨true, false⟩
  | none => ⟨true, false⟩

/-- One iteration of the `while (this.running)` loop of `startPolling`: the
claimed batch is processed entry by entry, and the loop keeps running iff
`running` is still set — only `onModuleDestroy` clears it; per-entry errors
are caught inside the loop and the outer catch sleeps 500ms and retries, so no
entry outcome stops polling. -/
def bridgeStep (running : Bool) (publishOk : BridgeEntry → Bool)
    (batch : List BridgeEntry) : Bool × List BridgeOutcome :=
  (running, batch.map (fun e => bridgeHandleEntry (publishOk e) e))

/-- Claim C6: every claimed entry is acknowledged after its delivery attempt
regardless of outcome — an entry whose payload fails parsing or validation is
acknowledged without being forwarded, a successfully parsed entry is forwarded
to the pub/sub fan-out and acknowledged — and no per-entry outcome terminates
the polling loop. -/
theorem C6_bridge_acks_unconditionally
    (publishOk : BridgeEntry → Bool) (batch : List BridgeEntry) :
    (∀ e ∈ batch, (bridgeHandleEntry (publishOk e) e).acked = true) ∧
    (∀ e, e.payloadRaw.bind validateSessionEvent = none →
      bridgeHandleEntry (publishOk e) e = ⟨true, false⟩) ∧
    (∀ e o, e.payloadRaw.bind validateSessionEvent = some o → publishOk e = true →
      bridgeHandleEntry (publishOk e) e = ⟨true, true⟩) ∧
    (bridgeStep true publishOk batch).1 = true := by
  refine ⟨?_, ?_, ?_, rfl⟩
  · intro e _
    cases h : e.payloadRaw.bind validateSessionEvent <;>
      cases hp : publishOk e <;>
        simp [bridgeHandleEntry, h, hp]
  · intro e h
    simp [bridgeHandleEntry, h]
  · intro e o h hp
    simp [bridgeHandleEntry, h, hp]

/-- Concrete instance of claim C6: a valid entry is published and acked, a
malformed one is acked without publishing, and the loop keeps running. -/
theorem C6_witness :
    (bridgeHandleEntry true ⟨1, some [("type", "CREATED")]⟩).acked = true ∧
    bridgeHandleEntry true (⟨2, none⟩ : BridgeEntry) = ⟨true, false⟩ ∧
    bridgeHandleEntry true ⟨1, some [("type", "CREATED")]⟩ = ⟨true, true⟩ ∧
    (bridgeStep true (fun _ => true)
        [⟨1, some [("type", "CREATED")]⟩, ⟨2, none⟩]).1 = true := by
  have h := C6_bridge_acks_unconditionally (fun _ => true)
    [⟨1, some [("type", "CREATED")]⟩, ⟨2, none⟩]
  exact ⟨h.1 _ (List.mem_cons_self _ _), h.2.1 _ rfl, h.2.2.1 _ _ rfl rfl, h.2.2.2⟩

end Talkie
